import Mathlib

/-!
# Verification of the mevworld swap-calculation and state-mirror core

Shallow embedding of the repository's swap calculator
(`src/calculation/{calculator,uniswap,aerodrome,balancer}.rs`) and of the
state mirror (`src/state_db/{blockstate_db,v2_db}.rs`), with theorems
checking the specification's claims against it.

Conventions of the embedding:
* `U256` values are natural numbers; the release-profile semantics of the
  `ruint` arithmetic used by the source is wrapping, so `+`, `-`, `*` on
  `U256` are modelled modulo `2^256` (`wadd`, `wsub`, `wmul`), while the
  `saturating_*` methods are modelled by `satAdd`, `satSub`, `satMul`.
  `U256` division panics on a zero divisor; a panic is modelled as
  `Option.none`, so fallible paths return `Option`.
* `I256` values are integers; `I256::from_raw` reinterprets a 256-bit word
  as two's complement (`i256ofRaw`), and `into_raw` maps back
  (`i256toRaw`).
* Rust `HashMap`s are modelled as functions into `Option`;
  `Result<_, E>` is `Except E _`; `unwrap` / `expect` on a missing or
  error value is a panic, i.e. `Option.none`.
-/

/-- Size of the 256-bit word domain. -/
def UMAX : Nat := 2 ^ 256

/-- Wrapping multiplication on 256-bit words (ruint `Mul`). -/
def wmul (a b : Nat) : Nat := a * b % UMAX

/-- Wrapping addition on 256-bit words (ruint `Add`). -/
def wadd (a b : Nat) : Nat := (a + b) % UMAX

/-- Wrapping subtraction on 256-bit words (ruint `Sub`). -/
def wsub (a b : Nat) : Nat := (a + UMAX - b % UMAX) % UMAX

/-- Saturating multiplication on 256-bit words (`U256::saturating_mul`). -/
def satMul (a b : Nat) : Nat := min (a * b) (UMAX - 1)

/-- Saturating addition on 256-bit words (`U256::saturating_add`). -/
def satAdd (a b : Nat) : Nat := min (a + b) (UMAX - 1)

/-- Saturating subtraction (`U256::saturating_sub`); `Nat` subtraction
already floors at zero. -/
def satSub (a b : Nat) : Nat := a - b

/-- Wrapping exponentiation (`U256::pow`). -/
def wpow (a b : Nat) : Nat := a ^ b % UMAX

/-- Reinterpret a 256-bit word as a signed two's-complement integer
(`I256::from_raw`). -/
def i256ofRaw (x : Nat) : Int :=
  if x < 2 ^ 255 then (x : Int) else (x : Int) - (2 ^ 256 : Int)

/-- Map a signed value to its 256-bit two's-complement word
(`I256::into_raw`). -/
def i256toRaw (x : Int) : Nat := (x % (2 ^ 256 : Int)).toNat

/-! ## Data model

The pool-protocol tags of `pool_sync::PoolType`, as matched by
`Calculator::compute_amount_out`. -/

inductive PoolType where
  | UniswapV2 | SushiSwapV2 | SwapBasedV2
  | PancakeSwapV2 | BaseSwapV2 | DackieSwapV2
  | AlienBaseV2
  | UniswapV3 | SushiSwapV3 | BaseSwapV3 | Slipstream
  | PancakeSwapV3 | AlienBaseV3 | SwapBasedV3 | DackieSwapV3
  | Aerodrome
  | BalancerV2
  | MaverickV1 | MaverickV2
  | CurveTwoCrypto | CurveTriCrypto
  deriving DecidableEq, Repr

/-- Provenance tag of a stored slot (`InsertionType`). -/
inductive InsertionType where
  | Custom
  | OnChain
  deriving DecidableEq, Repr

/-- A stored storage word with its provenance (`BlockStateDBSlot`). -/
structure BlockStateDBSlot where
  value : Nat
  insertionType : InsertionType
  deriving DecidableEq, Repr

/-- Account-level data kept by the mirror (`revm::AccountInfo`); the code
hash is produced by the abstract hash function carried by the state, and
the code body is kept as an opaque word. -/
structure AccountInfo where
  balance : Nat
  nonce : Nat
  codeHash : Nat
  code : Nat
  deriving DecidableEq, Repr

/-- Cache state of a mirrored account (`revm::db::AccountState`). -/
inductive AccountState where
  | NotExisting
  | Touched
  | StorageCleared
  | None
  deriving DecidableEq, Repr

/-- One mirrored account (`BlockStateDBAccount`); the slot map is a
function into `Option`, modelling the `HashMap`. -/
structure BlockStateDBAccount where
  info : AccountInfo
  state : AccountState
  storage : Nat → Option BlockStateDBSlot
  insertionType : InsertionType

/-- Pool metadata from `pool_sync::Pool` as used by the calculator: only
the `token0` address enters `zero_to_one`. -/
structure PoolMeta where
  token0 : Nat
  deriving DecidableEq, Repr

/-- The remote data source (`alloy` provider): point lookups that either
return a word or fail with a transport error. -/
structure RemoteProvider where
  getStorageAt : Nat → Nat → Except String Nat
  getTransactionCount : Nat → Except String Nat
  getBalance : Nat → Except String Nat
  getCodeAt : Nat → Except String Nat

/-- Slot0 fields of a concentrated-liquidity pool as read back by the
calculator. Modelled from the spec: the reader `slot0` is absent from
the staged sources (only `insert_slot0` is present); per the spec it
yields the pool's current sqrt price and active tick. -/
structure Slot0 where
  sqrtPriceX96 : Nat
  tick : Int
  deriving DecidableEq, Repr

/-- The state mirror (`BlockStateDB`). `accounts`, `contracts`,
`block_hashes`, `pools` and `pool_info` are the source's maps; `hashSlow`
abstracts `Bytecode::hash_slow`. The trailing fields model the protocol
readers that the calculator calls but whose definitions are absent from
the staged sources (only their insertion counterparts exist); they are
modelled from the spec as direct reads of the mirrored protocol fields:
decimals, swap fee and stability flag of a solidly-family pool, the
balances/weights/fee/token-list of a weighted pool, and the price, tick,
liquidity, tick-spacing, tick-bitmap and tick-net-liquidity data of a
concentrated-liquidity pool. -/
structure BlockStateDB where
  accounts : Nat → Option BlockStateDBAccount
  contracts : Nat → Option Nat
  logs : List Nat
  blockHashes : Nat → Option Nat
  pools : Nat → Bool
  poolInfo : Nat → Option PoolMeta
  provider : RemoteProvider
  hashSlow : Nat → Nat
  getDecimals : Nat → Nat × Nat
  getFee : Nat → Nat
  getStable : Nat → Bool
  getBalancerBalances : Nat → List Nat
  getBalancerWeights : Nat → List Nat
  getBalancerFee : Nat → Nat
  getBalancerTokens : Nat → List Nat
  slot0 : Nat → Except String Slot0
  liquidity : Nat → Except String Nat
  tickSpacing : Nat → Except String Int
  tickBitmap : Nat → Int → Except String Nat
  ticksLiquidityNet : Nat → Int → Except String Int

/-- Insertion into a map modelled as a function (`HashMap::insert`). -/
def mapInsert {α : Type} (m : Nat → Option α) (k : Nat) (v : α) :
    Nat → Option α :=
  fun x => if x = k then some v else m x

/-! ## StateStore operations (`src/state_db/blockstate_db.rs`) -/

/-- Membership of an address in the tracked-pool set
(`BlockStateDB::tracking_pool`). -/
def trackingPool (db : BlockStateDB) (addr : Nat) : Bool := db.pools addr

/-- Swap direction from the input token (`BlockStateDB::zero_to_one`):
`Some (token0 == token_in)` when the pool is known. -/
def zeroToOne (db : BlockStateDB) (pool tokenIn : Nat) : Option Bool :=
  (db.poolInfo pool).map (fun info => info.token0 == tokenIn)

/-- Remote storage read (`DatabaseRef::storage_ref`): always delegates to
the provider. -/
def storageRef (db : BlockStateDB) (addr idx : Nat) : Except String Nat :=
  db.provider.getStorageAt addr idx

/-- Overwrite the diffed slots of one account
(`BlockStateDB::update_all_slots`): each `(slot, value)` entry of the
block trace is written with provenance `Custom`, but only while the
account record exists. -/
def updateAllSlots (db : BlockStateDB) (addr : Nat)
    (accountState : List (Nat × Nat)) : BlockStateDB :=
  accountState.foldl (fun db' sv =>
    match db'.accounts addr with
    | some account =>
        { db' with accounts := (mapInsert db'.accounts addr
            { account with storage := (mapInsert account.storage sv.1
                { value := sv.2, insertionType := InsertionType.Custom }) }) }
    | none => db') db

/-- The per-address step of `MarketState::update_state`: a diff is applied
through `update_all_slots` only when the address is a tracked pool. -/
def updateStateStep (db : BlockStateDB) (addr : Nat)
    (accountState : List (Nat × Nat)) : BlockStateDB :=
  if trackingPool db addr then updateAllSlots db addr accountState else db

/-- Cached-first storage read (`Database::storage`): a cached slot is
returned as-is; a miss fetches from the provider and inserts the value
with provenance `OnChain`. The possibly-extended state is returned next
to the value (the source method takes `&mut self`). -/
def storage (db : BlockStateDB) (addr idx : Nat) :
    Except String (Nat × BlockStateDB) :=
  match db.accounts addr with
  | some acc =>
      match acc.storage idx with
      | some slot => Except.ok (slot.value, db)
      | none =>
          match storageRef db addr idx with
          | Except.error e => Except.error e
          | Except.ok value =>
              Except.ok (value,
                { db with accounts := (mapInsert db.accounts addr
                    { acc with storage := (mapInsert acc.storage idx
                        { value := value,
                          insertionType := InsertionType.OnChain }) }) })
  | none =>
      match storageRef db addr idx with
      | Except.error e => Except.error e
      | Except.ok value =>
          Except.ok (value,
            { db with accounts := (mapInsert db.accounts addr
                { info := { balance := 0, nonce := 0,
                            codeHash := db.hashSlow 0, code := 0 },
                  state := AccountState.None,
                  storage := (mapInsert (fun _ => none) idx
                    { value := value,
                      insertionType := InsertionType.OnChain }),
                  insertionType := InsertionType.OnChain }) })

/-- Read-only account fetch (`DatabaseRef::basic_ref`): a cached record is
returned; otherwise nonce, balance and code are fetched from the provider,
and any provider failure collapses to `Ok(None)`. -/
def basicRef (db : BlockStateDB) (addr : Nat) :
    Except String (Option AccountInfo) :=
  match db.accounts addr with
  | some acc => Except.ok (some acc.info)
  | none =>
      match db.provider.getTransactionCount addr,
            db.provider.getBalance addr,
            db.provider.getCodeAt addr with
      | Except.ok n, Except.ok b, Except.ok c =>
          Except.ok (some { balance := b, nonce := n,
                            codeHash := db.hashSlow c, code := c })
      | _, _, _ => Except.ok none

/-- Caching account fetch (`Database::basic`): a miss re-reads through
`basic_ref` and then calls `unwrap()` on the inner `Option`, so a
provider failure — which `basic_ref` had mapped to `Ok(None)` — panics.
The outer `Option` is the panic, the inner `Except` the declared error
channel. -/
def basic (db : BlockStateDB) (addr : Nat) :
    Option (Except String (AccountInfo × BlockStateDB)) :=
  match db.accounts addr with
  | some acc => some (Except.ok (acc.info, db))
  | none =>
      match basicRef db addr with
      | Except.error e => some (Except.error e)
      | Except.ok none => none
      | Except.ok (some info) =>
          some (Except.ok (info,
            { db with accounts := (mapInsert db.accounts addr
                { info := info, state := AccountState.None,
                  storage := fun _ => none,
                  insertionType := InsertionType.OnChain }) }))

/-! ## V2 reserve reads (`src/state_db/v2_db.rs`) -/

/-- The packed-`U112` mask used for V2 reserves. -/
def U112MASK : Nat := 2 ^ 112 - 1

/-- Unpack both reserves from storage slot 8
(`BlockStateDB::get_reserves`); the `unwrap()` on the remote read is a
panic, hence `Option`. -/
def getReserves (db : BlockStateDB) (pool : Nat) : Option (Nat × Nat) :=
  match storageRef db pool 8 with
  | Except.error _ => none
  | Except.ok value =>
      some (value % 2 ^ 112, value / 2 ^ 112 % 2 ^ 112)

/-- Read `token0` from storage slot 6 (`BlockStateDB::get_token0`); the
address is the low 160 bits of the word, and the `unwrap()` is a panic. -/
def getToken0 (db : BlockStateDB) (pool : Nat) : Option Nat :=
  match storageRef db pool 6 with
  | Except.error _ => none
  | Except.ok raw => some (raw % 2 ^ 160)

/-! ## Constant-product quote (`Calculator::uniswap_v2_out`) -/

/-- Constant-product output (`uniswap_v2_out`): reserves are oriented by
`zero_to_one`, the fee-multiplied input is added to the scaled in-reserve,
and the quotient is returned. The two `unwrap()`s and the division's zero
check are panics. -/
def uniswapV2Out (db : BlockStateDB) (amountIn pool tokenIn fee : Nat) :
    Option Nat :=
  match zeroToOne db pool tokenIn with
  | none => none
  | some z =>
      match getReserves db pool with
      | none => none
      | some (reserve0, reserve1) =>
          let scalar := 10000
          let (r0, r1) := if z then (reserve0, reserve1)
                          else (reserve1, reserve0)
          let amountInWithFee := wmul amountIn fee
          let numerator := wmul amountInWithFee r1
          let denominator := wadd (wmul r0 scalar) amountInWithFee
          if denominator = 0 then none else some (numerator / denominator)

/-! ## Solidly-family quote (`src/calculation/aerodrome.rs`) -/

/-- Stable invariant `k = xy(x^2+y^2)` on 18-decimal fixed point
(`Calculator::_k`). -/
def aeroK (x y : Nat) : Nat :=
  let scaleFactor := wpow 10 18
  if scaleFactor = 0 then 0 else
  let xSq := satMul x x / scaleFactor
  let ySq := satMul y y / scaleFactor
  let xyTerm := satMul x y / scaleFactor
  satMul xyTerm (satAdd xSq ySq) / scaleFactor

/-- Newton target function `f(x,y) = xy(x^2+y^2)` (`Calculator::_f`),
which the source defines as a direct reuse of `_k`. -/
def aeroF (x y : Nat) : Nat := aeroK x y

/-- Derivative `dK/dy = x(x^2 + 3y^2)` on the same fixed-point basis
(`Calculator::_d`). -/
def aeroD (x y : Nat) : Nat :=
  let scaleFactor := wpow 10 18
  if scaleFactor = 0 then 0 else
  let xSq := satMul x x / scaleFactor
  let ySq := satMul y y / scaleFactor
  let threeYSq := satMul 3 ySq
  satMul x (satAdd xSq threeYSq) / scaleFactor

/-- Outcome of one iteration of the `_get_y` Newton loop: either an early
return with a final value, or the next estimate to iterate on. -/
inductive GetYStep where
  | done (y : Nat)
  | next (y : Nat)
  deriving DecidableEq, Repr

/-- One iteration of the `_get_y` loop body, in source order: zero
derivative returns the current estimate; a step below one unit triggers
the crossing checks and then a unit step; otherwise the derivative-based
step is applied; finally a drained-to-zero estimate with `k` still short
of the target returns zero. -/
def getYStep (x0 xyK y : Nat) : GetYStep :=
  let scaleFactor := wpow 10 18
  let precisionOne := 1
  let kCurrent := aeroF x0 y
  let dVal := aeroD x0 y
  if dVal = 0 then GetYStep.done y
  else
    let diff := if kCurrent > xyK then satSub kCurrent xyK
                else satSub xyK kCurrent
    let dy := satMul diff scaleFactor / dVal
    if dy < precisionOne then
      let nextY := if kCurrent < xyK then satAdd y precisionOne
                   else satSub y precisionOne
      if nextY = 0 ∧ kCurrent ≥ xyK then GetYStep.done y
      else
        let kNext := aeroF x0 nextY
        if kCurrent < xyK ∧ kNext ≥ xyK then GetYStep.done nextY
        else if ¬ (kCurrent < xyK) ∧ kNext ≤ xyK then GetYStep.done y
        else if dy = 0 then
          if kCurrent = xyK then GetYStep.done y
          else
            let y1 := if kCurrent < xyK then satAdd y precisionOne
                      else satSub y precisionOne
            if y1 = 0 ∧ kCurrent < xyK then GetYStep.done 0
            else GetYStep.next y1
        else
          let y1 := if kCurrent < xyK then satAdd y dy else satSub y dy
          if y1 = 0 ∧ kCurrent < xyK then GetYStep.done 0
          else GetYStep.next y1
    else
      let y1 := if kCurrent < xyK then satAdd y dy else satSub y dy
      if y1 = 0 ∧ kCurrent < xyK then GetYStep.done 0
      else GetYStep.next y1

/-- The `for i in 0..255` iteration of `_get_y`, with the remaining
iteration budget as fuel; an exhausted budget returns the current
estimate, as the source does after the loop. -/
def getYGo (x0 xyK : Nat) : Nat → Nat → Nat
  | 0, y => y
  | fuel + 1, y =>
      match getYStep x0 xyK y with
      | GetYStep.done r => r
      | GetYStep.next y' => getYGo x0 xyK fuel y'

/-- Newton solver for the new stable balance (`Calculator::_get_y`):
at most 255 iterations of `getYStep`. -/
def getY (x0 xyK y : Nat) : Nat := getYGo x0 xyK 255 y

/-- Number of `_get_y` loop iterations actually executed (each early
return and each continued pass counts as one). -/
def getYCountGo (x0 xyK : Nat) : Nat → Nat → Nat
  | 0, _ => 0
  | fuel + 1, y =>
      match getYStep x0 xyK y with
      | GetYStep.done _ => 1
      | GetYStep.next y' => 1 + getYCountGo x0 xyK fuel y'

/-- Iteration count of `getY` for a given start. -/
def getYCount (x0 xyK y : Nat) : Nat := getYCountGo x0 xyK 255 y

/-- Solidly-family quote (`Calculator::aerodrome_out`): proportional fee
first, then either the stable-curve path (rescale to 18 decimals, solve
with `getY`, rescale back) or the volatile constant-product path. The
reserve and token0 reads go through the panicking `unwrap()`s of
`get_reserves` / `get_token0`, and the volatile division panics on a zero
denominator, hence `Option`. -/
def aerodromeOut (db : BlockStateDB) (amountIn tokenIn pool : Nat) :
    Option Nat :=
  match getReserves db pool with
  | none => none
  | some (reserve0, reserve1) =>
  match getToken0 db pool with
  | none => none
  | some token0 =>
  let (dec0, dec1) := db.getDecimals pool
  let fee := db.getFee pool
  let stable := db.getStable pool
  let res0 := reserve0
  let res1 := reserve1
  let feeAmount := wmul amountIn fee / 10000
  let amountAfterFee := satSub amountIn feeAmount
  if amountAfterFee = 0 then some 0
  else
    let token0Decimals := wpow 10 dec0
    let token1Decimals := wpow 10 dec1
    if token0Decimals = 0 ∨ token1Decimals = 0 then some 0
    else if stable then
      let scaleFactor := wpow 10 18
      if scaleFactor = 0 then some 0
      else
        let scaledRes0 := satMul res0 scaleFactor / token0Decimals
        let scaledRes1 := satMul res1 scaleFactor / token1Decimals
        let scaledAmountIn :=
          if tokenIn = token0 then satMul amountAfterFee scaleFactor / token0Decimals
          else satMul amountAfterFee scaleFactor / token1Decimals
        let (scaledResA, scaledResB) :=
          if tokenIn = token0 then (scaledRes0, scaledRes1)
          else (scaledRes1, scaledRes0)
        let xy := aeroK scaledRes0 scaledRes1
        let yIn := satAdd scaledResA scaledAmountIn
        let newY := getY yIn xy scaledResB
        let scaledY := satSub scaledResB newY
        if tokenIn = token0 then some (satMul scaledY token1Decimals / scaleFactor)
        else some (satMul scaledY token0Decimals / scaleFactor)
    else
      let (resA, resB) :=
        if tokenIn = token0 then (res0, res1) else (res1, res0)
      let den := wadd resA amountAfterFee
      if den = 0 then none else some (wmul amountAfterFee resB / den)

/-! ## Weighted-pool quote (`src/calculation/balancer.rs`) -/

/-- Fixed-point division rounding down (`Calculator::div_down`), scaled by
`1e18`; the zero-divisor division panics, hence `Option`. -/
def divDown (a b : Nat) : Option Nat :=
  if a = 0 then some 0
  else if b = 0 then none
  else some (wmul a (10 ^ 18) / b)

/-- Fixed-point multiplication rounding down (`Calculator::mul_down`). -/
def mulDown (a b : Nat) : Nat := wmul a b / 10 ^ 18

/-- Fixed-point complement `1 - x` clamped at zero
(`Calculator::complement_balancer`). -/
def complementBalancer (x : Nat) : Nat :=
  let one := 10 ^ 18
  if x < one then one - x else 0

/-- Weighted-pool quote (`Calculator::balancer_v2_out`), parameterized by
the fractional power `powUp`: the source's `pow_up_balancer` converts both
operands to `f64` and calls `powf`, a floating-point computation that this
integer embedding keeps abstract. Token-index lookups use
`position(..).expect(..)` and direct `Vec` indexing, so a missing token or
a too-short balance/weight vector panics (`none`). -/
def balancerV2Out (powUp : Nat → Nat → Nat) (db : BlockStateDB)
    (amountIn tokenIn tokenOut pool : Nat) : Option Nat :=
  let balances := db.getBalancerBalances pool
  let weights := db.getBalancerWeights pool
  let swapFee := db.getBalancerFee pool
  let tokens := db.getBalancerTokens pool
  match tokens.findIdx? (fun t => t == tokenIn) with
  | none => none
  | some tokenInIndex =>
  match tokens.findIdx? (fun t => t == tokenOut) with
  | none => none
  | some tokenOutIndex =>
  match balances.get? tokenInIndex, balances.get? tokenOutIndex,
        weights.get? tokenInIndex, weights.get? tokenOutIndex with
  | some balanceIn, some balanceOut, some weightIn, some weightOut =>
      let one := wpow 10 18
      let amountInAfterFee := wmul amountIn (wsub one swapFee) / one
      let denominator := wadd balanceIn amountInAfterFee
      if denominator = 0 then some 0
      else
        match divDown balanceIn denominator with
        | none => none
        | some base =>
        if weightOut = 0 then some 0
        else
          match divDown weightIn weightOut with
          | none => none
          | some exponent =>
              let power := powUp base exponent
              let factor := complementBalancer power
              some (mulDown balanceOut factor)
  | _, _, _, _ => none

/-! ## Concentrated-liquidity quote (`src/calculation/uniswap.rs`)

The tick/price/step arithmetic lives in the external `uniswap_v3_math`
crate, which is not part of this repository; it is kept abstract as a
structure of functions, to be constrained by the spec's description of
the step formula where a claim needs it. The repository's own loop
structure, state updates, clamping, crossing and error handling are
embedded literally. -/

/-- Global tick lower bound of the concentrated-liquidity protocol. -/
def MIN_TICK : Int := -887272

/-- Global tick upper bound of the concentrated-liquidity protocol. -/
def MAX_TICK : Int := 887272

/-- Sqrt price at `MIN_TICK` (`tick_math::MIN_SQRT_RATIO`). -/
def minSqrtRatio : Nat := 4295128739

/-- Sqrt price at `MAX_TICK` (`tick_math::MAX_SQRT_RATIO`). -/
def maxSqrtRatio : Nat := 1461446703485210103287273052203988822378723970342

/-- Word and bit position of a tick's initialization bit (`position`):
`tick >> 8` is an arithmetic shift, i.e. floor division by 256, and
`tick % 256` the sign-following remainder. -/
def position (tick : Int) : Int × Int :=
  (Int.fdiv tick 256, Int.tmod tick 256)

/-- Mutable state of the simulated swap (`CurrentState`). -/
structure CurrentState where
  amountSpecifiedRemaining : Int
  amountCalculated : Int
  sqrtPriceX96 : Nat
  tick : Int
  liquidity : Nat
  deriving Repr

/-- Modelled from the spec: the external `uniswap_v3_math` interface used
by the loop — next initialized tick from the bitmap window, sqrt price of
a tick, one exact-input swap step, and tick of a sqrt price. -/
structure V3Math where
  nextInitializedTickWithinOneWord :
    (Int → Option Nat) → Int → Int → Bool → Except String (Int × Bool)
  getSqrtRatioAtTick : Int → Except String Nat
  computeSwapStep :
    Nat → Nat → Nat → Int → Nat → Except String (Nat × Nat × Nat × Nat)
  getTickAtSqrtRatio : Nat → Except String Int

/-- Three-word tick-bitmap window built before the next-tick search: the
source inserts `word_pos - 1 ..= word_pos + 1`, turning a failed bitmap
read into a zero word via `unwrap_or_default`. -/
def v3BitmapWindow (db : BlockStateDB) (pool : Nat) (wordPos : Int) :
    Int → Option Nat :=
  fun w =>
    if w = wordPos - 1 ∨ w = wordPos ∨ w = wordPos + 1 then
      some (match db.tickBitmap pool w with
            | Except.ok v => v
            | Except.error _ => 0)
    else none

/-- Clamp of the proposed next tick to the global tick bounds
(`step.tick_next.clamp(MIN_TICK, MAX_TICK)`). -/
def v3ClampTick (t : Int) : Int := max MIN_TICK (min t MAX_TICK)

/-- Target spot price bounded by the swap's price limit, per direction. -/
def v3SwapTarget (z : Bool) (sqrtPriceNextX96 limit : Nat) : Nat :=
  if z then
    if sqrtPriceNextX96 < limit then limit else sqrtPriceNextX96
  else
    if sqrtPriceNextX96 > limit then limit else sqrtPriceNextX96

/-- State update after one swap step: decrement the remaining input by
consumed-plus-fee (`overflowing_add` then `I256::from_raw`), decrement
the calculated amount by the produced output, and advance the price. -/
def v3Advance (st : CurrentState)
    (sqrtPriceNext amountIn amountOut feeAmount : Nat) : CurrentState :=
  { st with
    amountSpecifiedRemaining :=
      st.amountSpecifiedRemaining - i256ofRaw ((amountIn + feeAmount) % UMAX),
    amountCalculated := st.amountCalculated - i256ofRaw (amountOut % UMAX),
    sqrtPriceX96 := sqrtPriceNext }

/-- Net-liquidity adjustment when crossing an initialized tick: the sign
flips in the downward direction, `checked_sub` underflow is
`"Insufficient liquidity"` and `checked_add` overflow past `u128::MAX`
is `"Liquidity overflow"`. -/
def v3CrossLiquidity (db : BlockStateDB) (pool : Nat) (z : Bool)
    (tickNext : Int) (initialized : Bool) (liq : Nat) : Except String Nat :=
  if initialized then
    match db.ticksLiquidityNet pool tickNext with
    | Except.error e => Except.error e
    | Except.ok rawNet =>
        let liquidityNet := if z then -rawNet else rawNet
        if liquidityNet < 0 then
          if liq < (-liquidityNet).toNat then
            Except.error "Insufficient liquidity"
          else Except.ok (liq - (-liquidityNet).toNat)
        else
          if 2 ^ 128 ≤ liq + liquidityNet.toNat then
            Except.error "Liquidity overflow"
          else Except.ok (liq + liquidityNet.toNat)
  else Except.ok liq

/-- One iteration of the `uniswap_v3_out` while-loop, in source order:
build the bitmap window, find and clamp the next initialized tick, bound
the target price by the price limit, run one swap step, update the
remaining/calculated amounts and the price, and cross the tick when the
price reached the tick boundary — else re-derive the tick from the price
when it moved. -/
def v3Step (math : V3Math) (db : BlockStateDB) (pool : Nat) (z : Bool)
    (ts : Int) (fee : Nat) (sqrtPriceLimitX96 : Nat) (st : CurrentState) :
    Except String CurrentState :=
  let sqrtPriceStartX96 := st.sqrtPriceX96
  let wordPos := (position (Int.tdiv st.tick ts)).1
  match math.nextInitializedTickWithinOneWord (v3BitmapWindow db pool wordPos)
      st.tick ts z with
  | Except.error e => Except.error e
  | Except.ok (tickNextRaw, initialized) =>
  let tickNext := v3ClampTick tickNextRaw
  match math.getSqrtRatioAtTick tickNext with
  | Except.error e => Except.error e
  | Except.ok sqrtPriceNextX96 =>
  match math.computeSwapStep st.sqrtPriceX96
      (v3SwapTarget z sqrtPriceNextX96 sqrtPriceLimitX96)
      st.liquidity st.amountSpecifiedRemaining fee with
  | Except.error e => Except.error e
  | Except.ok (sqrtPriceNext, amountIn, amountOut, feeAmount) =>
  let st' := v3Advance st sqrtPriceNext amountIn amountOut feeAmount
  if st'.sqrtPriceX96 = sqrtPriceNextX96 then
    match v3CrossLiquidity db pool z tickNext initialized st'.liquidity with
    | Except.error e => Except.error e
    | Except.ok newLiquidity =>
        Except.ok { st' with liquidity := newLiquidity,
                             tick := if z then tickNext - 1 else tickNext }
  else if st'.sqrtPriceX96 ≠ sqrtPriceStartX96 then
    match math.getTickAtSqrtRatio st'.sqrtPriceX96 with
    | Except.error e => Except.error e
    | Except.ok t => Except.ok { st' with tick := t }
  else Except.ok st'

/-- The `uniswap_v3_out` while-loop, with an explicit iteration budget
(the Rust loop is unbounded; running out of budget is the model's
`"fuel exhausted"` error). The loop runs while input remains and the
price has not hit the limit, then returns `(-amount_calculated)`
reinterpreted as a 256-bit word. -/
def uniswapV3Go (math : V3Math) (db : BlockStateDB) (pool : Nat) (z : Bool)
    (ts : Int) (fee : Nat) (sqrtPriceLimitX96 : Nat) :
    Nat → CurrentState → Except String Nat
  | 0, _ => Except.error "fuel exhausted"
  | fuel + 1, st =>
      if st.amountSpecifiedRemaining ≠ 0 ∧ st.sqrtPriceX96 ≠ sqrtPriceLimitX96 then
        match v3Step math db pool z ts fee sqrtPriceLimitX96 st with
        | Except.error e => Except.error e
        | Except.ok st' => uniswapV3Go math db pool z ts fee sqrtPriceLimitX96 fuel st'
      else Except.ok (i256toRaw (-st.amountCalculated))

/-- Concentrated-liquidity quote (`Calculator::uniswap_v3_out`): zero
input short-circuits to zero; the direction `unwrap()` is a panic (outer
`none`); the `slot0` / `liquidity` / `tick_spacing` reads propagate
errors through `?`; the price limit is one past the global sqrt-price
bound on the swap's side; then the loop runs from the pool's current
state. -/
def uniswapV3Out (math : V3Math) (db : BlockStateDB) (fuel : Nat)
    (amountIn pool tokenIn fee : Nat) : Option (Except String Nat) :=
  if amountIn = 0 then some (Except.ok 0)
  else
    match zeroToOne db pool tokenIn with
    | none => none
    | some z =>
    match db.slot0 pool with
    | Except.error e => some (Except.error e)
    | Except.ok s0 =>
    match db.liquidity pool with
    | Except.error e => some (Except.error e)
    | Except.ok liquidityVal =>
    match db.tickSpacing pool with
    | Except.error e => some (Except.error e)
    | Except.ok ts =>
    let sqrtPriceLimitX96 := if z then minSqrtRatio + 1 else maxSqrtRatio - 1
    let st : CurrentState :=
      { sqrtPriceX96 := s0.sqrtPriceX96,
        amountCalculated := 0,
        amountSpecifiedRemaining := i256ofRaw (amountIn % UMAX),
        tick := s0.tick,
        liquidity := liquidityVal }
    some (uniswapV3Go math db pool z ts fee sqrtPriceLimitX96 fuel st)

/-! ## Protocol dispatch (`Calculator::compute_amount_out`) -/

/-- Protocol-dispatching quote (`compute_amount_out`): the
constant-product families get their clone-specific fee multiplier, the
concentrated-liquidity family's `Result` is unwrapped with
`expect("Uniswap V3 computation failed")` — an error there is a panic
(`none`) — Aerodrome and BalancerV2 delegate (BalancerV2 receives
`token_in` for both token arguments, as the source does), and the
unimplemented Maverick/Curve arms log and return zero. -/
def computeAmountOut (powUp : Nat → Nat → Nat) (math : V3Math) (fuel : Nat)
    (db : BlockStateDB) (inputAmount pool tokenIn : Nat)
    (poolType : PoolType) (fee : Nat) : Option Nat :=
  match poolType with
  | PoolType.UniswapV2 | PoolType.SushiSwapV2 | PoolType.SwapBasedV2 =>
      uniswapV2Out db inputAmount pool tokenIn 9970
  | PoolType.PancakeSwapV2 | PoolType.BaseSwapV2 | PoolType.DackieSwapV2 =>
      uniswapV2Out db inputAmount pool tokenIn 9975
  | PoolType.AlienBaseV2 =>
      uniswapV2Out db inputAmount pool tokenIn 9984
  | PoolType.UniswapV3 | PoolType.SushiSwapV3 | PoolType.BaseSwapV3
  | PoolType.Slipstream | PoolType.PancakeSwapV3 | PoolType.AlienBaseV3
  | PoolType.SwapBasedV3 | PoolType.DackieSwapV3 =>
      match uniswapV3Out math db fuel inputAmount pool tokenIn fee with
      | none => none
      | some (Except.error _) => none
      | some (Except.ok v) => some v
  | PoolType.Aerodrome => aerodromeOut db inputAmount tokenIn pool
  | PoolType.BalancerV2 => balancerV2Out powUp db inputAmount tokenIn tokenIn pool
  | PoolType.MaverickV1 | PoolType.MaverickV2 => some 0
  | PoolType.CurveTwoCrypto | PoolType.CurveTriCrypto => some 0

/-! ## Test fixtures: concrete states for witnesses and counterexamples -/

/-- Trivial weighted-pool power, for paths where it is irrelevant. -/
def pow0 : Nat → Nat → Nat := fun _ _ => 0

/-- Trivial tick-math instance, for paths where it is irrelevant. -/
def exMath0 : V3Math :=
  { nextInitializedTickWithinOneWord := fun _ t _ _ => Except.ok (t, false),
    getSqrtRatioAtTick := fun _ => Except.ok 0,
    computeSwapStep := fun _ tgt _ _ _ => Except.ok (tgt, 0, 0, 0),
    getTickAtSqrtRatio := fun _ => Except.ok 0 }

/-- Provider fixture: slot 8 of every address holds one packed word, all
other lookups answer zero. -/
def reservesProvider (packed : Nat) : RemoteProvider :=
  { getStorageAt := fun _ idx => if idx = 8 then Except.ok packed else Except.ok 0,
    getTransactionCount := fun _ => Except.ok 0,
    getBalance := fun _ => Except.ok 0,
    getCodeAt := fun _ => Except.ok 0 }

/-- State fixture for a single V2-style pool at address 5 with the given
`token0` and packed reserves. -/
def mkV2DB (t0 packed : Nat) : BlockStateDB :=
  { accounts := fun _ => none,
    contracts := fun _ => none,
    logs := [],
    blockHashes := fun _ => none,
    pools := fun a => a == 5,
    poolInfo := fun a => if a = 5 then some { token0 := t0 } else none,
    provider := reservesProvider packed,
    hashSlow := fun _ => 0,
    getDecimals := fun _ => (18, 18),
    getFee := fun _ => 30,
    getStable := fun _ => false,
    getBalancerBalances := fun _ => [],
    getBalancerWeights := fun _ => [],
    getBalancerFee := fun _ => 0,
    getBalancerTokens := fun _ => [],
    slot0 := fun _ => Except.error "no slot0",
    liquidity := fun _ => Except.error "no liquidity",
    tickSpacing := fun _ => Except.error "no tick spacing",
    tickBitmap := fun _ _ => Except.error "no bitmap",
    ticksLiquidityNet := fun _ _ => Except.error "no net" }

/-! ## Shared lemmas about the constant-product path -/

/-- Fee multiplier chosen by the dispatcher's constant-product arms. -/
def cpFeeMul : PoolType → Option Nat
  | PoolType.UniswapV2 | PoolType.SushiSwapV2 | PoolType.SwapBasedV2 => some 9970
  | PoolType.PancakeSwapV2 | PoolType.BaseSwapV2 | PoolType.DackieSwapV2 => some 9975
  | PoolType.AlienBaseV2 => some 9984
  | _ => none

theorem computeAmountOut_cp_dispatch (powUp : Nat → Nat → Nat) (math : V3Math)
    (fuel : Nat) (db : BlockStateDB) (a pool tin fee : Nat) (pt : PoolType)
    (m : Nat) (hm : cpFeeMul pt = some m) :
    computeAmountOut powUp math fuel db a pool tin pt fee =
      uniswapV2Out db a pool tin m := by
  cases pt <;> simp_all [cpFeeMul, computeAmountOut]

theorem uniswapV2Out_unfold (db : BlockStateDB) (a pool tin m t0 packed : Nat)
    (hinfo : db.poolInfo pool = some { token0 := t0 })
    (hst : db.provider.getStorageAt pool 8 = Except.ok packed) :
    uniswapV2Out db a pool tin m =
      (let r0 := packed % 2 ^ 112
       let r1 := packed / 2 ^ 112 % 2 ^ 112
       let rIn := if t0 = tin then r0 else r1
       let rOut := if t0 = tin then r1 else r0
       let aF := a * m % UMAX
       let den := (rIn * 10000 % UMAX + aF) % UMAX
       if den = 0 then none else some (aF * rOut % UMAX / den)) := by
  simp only [uniswapV2Out, zeroToOne, getReserves, storageRef, hinfo, hst,
    Option.map, wmul, wadd]
  by_cases h : t0 = tin <;> simp [h]

theorem uniswapV2Out_formula (db : BlockStateDB) (a pool tin m t0 packed rIn rOut : Nat)
    (hinfo : db.poolInfo pool = some { token0 := t0 })
    (hst : db.provider.getStorageAt pool 8 = Except.ok packed)
    (hrin : rIn = (if t0 = tin then packed % 2 ^ 112 else packed / 2 ^ 112 % 2 ^ 112))
    (hrout : rOut = (if t0 = tin then packed / 2 ^ 112 % 2 ^ 112 else packed % 2 ^ 112))
    (h1 : a * m < UMAX) (h2 : a * m * rOut < UMAX)
    (h3 : rIn * 10000 + a * m < UMAX)
    (hden : rIn * 10000 + a * m ≠ 0) :
    uniswapV2Out db a pool tin m =
      some (a * m * rOut / (rIn * 10000 + a * m)) := by
  rw [uniswapV2Out_unfold db a pool tin m t0 packed hinfo hst]
  have hrin4 : rIn * 10000 < UMAX := lt_of_le_of_lt (Nat.le_add_right _ _) h3
  by_cases h : t0 = tin
  · simp only [if_pos h] at hrin hrout
    subst hrin; subst hrout
    simp only [if_pos h]
    rw [Nat.mod_eq_of_lt h1, Nat.mod_eq_of_lt hrin4, Nat.mod_eq_of_lt h3,
      Nat.mod_eq_of_lt h2, if_neg hden]
  · simp only [if_neg h] at hrin hrout
    subst hrin; subst hrout
    simp only [if_neg h]
    rw [Nat.mod_eq_of_lt h1, Nat.mod_eq_of_lt hrin4, Nat.mod_eq_of_lt h3,
      Nat.mod_eq_of_lt h2, if_neg hden]

theorem computeAmountOut_cp_formula
    (powUp : Nat → Nat → Nat) (math : V3Math) (fuel : Nat) (db : BlockStateDB)
    (a pool tin fee : Nat) (pt : PoolType) (m t0 packed rIn rOut : Nat)
    (hm : cpFeeMul pt = some m)
    (hinfo : db.poolInfo pool = some { token0 := t0 })
    (hst : db.provider.getStorageAt pool 8 = Except.ok packed)
    (hrin : rIn = (if t0 = tin then packed % 2 ^ 112 else packed / 2 ^ 112 % 2 ^ 112))
    (hrout : rOut = (if t0 = tin then packed / 2 ^ 112 % 2 ^ 112 else packed % 2 ^ 112))
    (h1 : a * m < UMAX) (h2 : a * m * rOut < UMAX)
    (h3 : rIn * 10000 + a * m < UMAX)
    (hden : rIn * 10000 + a * m ≠ 0) :
    computeAmountOut powUp math fuel db a pool tin pt fee =
      some (a * m * rOut / (rIn * 10000 + a * m)) := by
  rw [computeAmountOut_cp_dispatch powUp math fuel db a pool tin fee pt m hm]
  exact uniswapV2Out_formula db a pool tin m t0 packed rIn rOut hinfo hst
    hrin hrout h1 h2 h3 hden

/-- C1 counterexample: the claimed exact formula does not hold for every
constant-product quote. Against reserves (1000, 1000) with multiplier
9970, the input `2^256 / 9970 + 1` makes `amount_in * fee` wrap modulo
`2^256`, so the code quotes 0 while the claim's formula
`floor(amountIn * 9970 * 1000 / (1000 * 10000 + amountIn * 9970))`
evaluates to 999. -/
theorem computeAmountOut_constantProduct_wrap_cex :
    computeAmountOut pow0 exMath0 0 (mkV2DB 1 (1000 + 1000 * 2 ^ 112))
        (2 ^ 256 / 9970 + 1) 5 1 PoolType.UniswapV2 0 = some 0 ∧
    (2 ^ 256 / 9970 + 1) * 9970 * 1000 /
        (1000 * 10000 + (2 ^ 256 / 9970 + 1) * 9970) = 999 ∧
    (0 : Nat) ≠ 999 :=
  ⟨by decide, by decide, by decide⟩

/-- C1 amended: every constant-product quote dispatched through
`compute_amount_out` whose 256-bit products do not wrap and whose
denominator is nonzero returns exactly
`floor(amountIn * feeMul * reserveOut / (reserveIn * 10000 + amountIn * feeMul))`,
with the reserves oriented by comparing `token_in` against `token0` and
the clone-family multiplier selected by the dispatcher (9970 for the
UniswapV2/SushiSwapV2/SwapBasedV2 family, 9975 for
PancakeSwapV2/BaseSwapV2/DackieSwapV2, 9984 for AlienBaseV2); under
wrapping the exact formula fails, per the counterexample. -/
theorem computeAmountOut_constantProduct_exact
    (powUp : Nat → Nat → Nat) (math : V3Math) (fuel : Nat) (db : BlockStateDB)
    (a pool tin fee : Nat) (pt : PoolType) (m t0 packed rIn rOut : Nat)
    (hm : cpFeeMul pt = some m)
    (hinfo : db.poolInfo pool = some { token0 := t0 })
    (hst : db.provider.getStorageAt pool 8 = Except.ok packed)
    (hrin : rIn = (if t0 = tin then packed % 2 ^ 112 else packed / 2 ^ 112 % 2 ^ 112))
    (hrout : rOut = (if t0 = tin then packed / 2 ^ 112 % 2 ^ 112 else packed % 2 ^ 112))
    (h1 : a * m < UMAX) (h2 : a * m * rOut < UMAX)
    (h3 : rIn * 10000 + a * m < UMAX)
    (hden : rIn * 10000 + a * m ≠ 0) :
    computeAmountOut powUp math fuel db a pool tin pt fee =
      some (a * m * rOut / (rIn * 10000 + a * m)) :=
  computeAmountOut_cp_formula powUp math fuel db a pool tin fee pt m t0 packed
    rIn rOut hm hinfo hst hrin hrout h1 h2 h3 hden

/-- C1 witness: reserves (1000, 1000), multiplier 9970, input 100 gives
exactly `floor(100*9970*1000 / (1000*10000 + 100*9970))` (which is 90). -/
theorem computeAmountOut_constantProduct_exact_witness :
    computeAmountOut pow0 exMath0 0 (mkV2DB 1 (1000 + 1000 * 2 ^ 112)) 100 5 1
        PoolType.UniswapV2 0 =
      some (100 * 9970 * 1000 / (1000 * 10000 + 100 * 9970)) ∧
    100 * 9970 * 1000 / (1000 * 10000 + 100 * 9970) = 90 :=
  ⟨computeAmountOut_constantProduct_exact pow0 exMath0 0
      (mkV2DB 1 (1000 + 1000 * 2 ^ 112)) 100 5 1 0 PoolType.UniswapV2
      9970 1 (1000 + 1000 * 2 ^ 112) 1000 1000 rfl (by decide) rfl
      (by decide) (by decide) (by decide) (by decide) (by decide) (by decide),
    by decide⟩

theorem divFloorMono (a1 a2 m rOut D : Nat) (h12 : a1 ≤ a2)
    (hd1 : 0 < D + a1 * m) :
    a1 * m * rOut / (D + a1 * m) ≤ a2 * m * rOut / (D + a2 * m) := by
  have hmm : a1 * m ≤ a2 * m := Nat.mul_le_mul_right m h12
  have hd2 : 0 < D + a2 * m := by omega
  rw [Nat.le_div_iff_mul_le hd2]
  have hq : a1 * m * rOut / (D + a1 * m) * (D + a1 * m) ≤ a1 * m * rOut :=
    Nat.div_mul_le_self _ _
  have hcross : a1 * m * rOut * (D + a2 * m) ≤ a2 * m * rOut * (D + a1 * m) := by
    nlinarith [Nat.mul_le_mul_right (rOut * D) hmm]
  have hstep : a1 * m * rOut / (D + a1 * m) * (D + a2 * m) * (D + a1 * m) ≤
      a2 * m * rOut * (D + a1 * m) := by
    nlinarith [Nat.mul_le_mul_right (D + a2 * m) hq]
  exact Nat.le_of_mul_le_mul_right hstep hd1

/-- C9 counterexample: with reserves (1000, 1000) and multiplier 9970, the
input `2^256 / 9970 + 1` makes `amount_in * fee` wrap modulo `2^256`, and
the quote drops from 90 (at input 100) to 0 — monotonicity fails. -/
theorem computeAmountOut_monotonicity_cex :
    100 ≤ 2 ^ 256 / 9970 + 1 ∧
    computeAmountOut pow0 exMath0 0 (mkV2DB 1 (1000 + 1000 * 2 ^ 112)) 100 5 1
        PoolType.UniswapV2 0 = some 90 ∧
    computeAmountOut pow0 exMath0 0 (mkV2DB 1 (1000 + 1000 * 2 ^ 112))
        (2 ^ 256 / 9970 + 1) 5 1 PoolType.UniswapV2 0 = some 0 ∧
    ¬ (90 : Nat) ≤ 0 :=
  ⟨by decide, by decide, by decide, by decide⟩

/-- C9 amended: for the constant-product family with fixed pool state, the
quote is monotone non-decreasing in the input amount as long as the
256-bit products do not wrap for the larger input (under wrapping the
counterexample applies); the other families are outside this theorem. -/
theorem computeAmountOut_cp_monotone
    (powUp : Nat → Nat → Nat) (math : V3Math) (fuel : Nat) (db : BlockStateDB)
    (a1 a2 pool tin fee : Nat) (pt : PoolType) (m t0 packed rIn rOut : Nat)
    (hm : cpFeeMul pt = some m)
    (hinfo : db.poolInfo pool = some { token0 := t0 })
    (hst : db.provider.getStorageAt pool 8 = Except.ok packed)
    (hrin : rIn = (if t0 = tin then packed % 2 ^ 112 else packed / 2 ^ 112 % 2 ^ 112))
    (hrout : rOut = (if t0 = tin then packed / 2 ^ 112 % 2 ^ 112 else packed % 2 ^ 112))
    (h12 : a1 ≤ a2)
    (h1 : a2 * m < UMAX) (h2 : a2 * m * rOut < UMAX)
    (h3 : rIn * 10000 + a2 * m < UMAX)
    (hden : rIn * 10000 + a1 * m ≠ 0) :
    ∃ o1 o2,
      computeAmountOut powUp math fuel db a1 pool tin pt fee = some o1 ∧
      computeAmountOut powUp math fuel db a2 pool tin pt fee = some o2 ∧
      o1 ≤ o2 := by
  have hmm : a1 * m ≤ a2 * m := Nat.mul_le_mul_right m h12
  have h1a : a1 * m < UMAX := lt_of_le_of_lt hmm h1
  have h2a : a1 * m * rOut < UMAX :=
    lt_of_le_of_lt (Nat.mul_le_mul_right rOut hmm) h2
  have h3a : rIn * 10000 + a1 * m < UMAX := by omega
  have hden2 : rIn * 10000 + a2 * m ≠ 0 := by omega
  refine ⟨_, _,
    computeAmountOut_cp_formula powUp math fuel db a1 pool tin fee
      pt m t0 packed rIn rOut hm hinfo hst hrin hrout h1a h2a h3a hden,
    computeAmountOut_cp_formula powUp math fuel db a2 pool tin fee
      pt m t0 packed rIn rOut hm hinfo hst hrin hrout h1 h2 h3 hden2, ?_⟩
  exact divFloorMono a1 a2 m rOut (rIn * 10000) h12 (Nat.pos_of_ne_zero hden)

/-- C9 witness for the amended monotonicity: inputs 100 and 200 against
reserves (1000, 1000) with multiplier 9970 give ordered quotes. -/
theorem computeAmountOut_cp_monotone_witness :
    ∃ o1 o2,
      computeAmountOut pow0 exMath0 0 (mkV2DB 1 (1000 + 1000 * 2 ^ 112)) 100 5 1
        PoolType.UniswapV2 0 = some o1 ∧
      computeAmountOut pow0 exMath0 0 (mkV2DB 1 (1000 + 1000 * 2 ^ 112)) 200 5 1
        PoolType.UniswapV2 0 = some o2 ∧
      o1 ≤ o2 :=
  computeAmountOut_cp_monotone pow0 exMath0 0 (mkV2DB 1 (1000 + 1000 * 2 ^ 112))
    100 200 5 1 0 PoolType.UniswapV2 9970 1 (1000 + 1000 * 2 ^ 112) 1000 1000
    rfl (by decide) rfl (by decide) (by decide) (by decide) (by decide)
    (by decide) (by decide) (by decide)

theorem updateAllSlots_cons (db : BlockStateDB) (addr : Nat)
    (hd : Nat × Nat) (tl : List (Nat × Nat)) :
    updateAllSlots db addr (hd :: tl) =
      updateAllSlots
        (match db.accounts addr with
         | some account =>
             { db with accounts := (mapInsert db.accounts addr
                 { account with storage := (mapInsert account.storage hd.1
                     { value := hd.2, insertionType := InsertionType.Custom }) }) }
         | none => db) addr tl := by
  simp [updateAllSlots, List.foldl_cons]

theorem updateAllSlots_preserve (addr slot : Nat) :
    ∀ (l : List (Nat × Nat)) (db : BlockStateDB) (acc : BlockStateDBAccount),
      db.accounts addr = some acc → slot ∉ l.map Prod.fst →
      ∃ acc', (updateAllSlots db addr l).accounts addr = some acc' ∧
        acc'.storage slot = acc.storage slot
  | [], db, acc, hacc, _ => ⟨acc, by simpa [updateAllSlots] using hacc, rfl⟩
  | (s, v) :: tl, db, acc, hacc, hnot => by
      have hs : slot ≠ s := by
        intro h; exact hnot (by simp [h])
      have htl : slot ∉ tl.map Prod.fst := by
        intro h; exact hnot (by simp [h])
      rw [updateAllSlots_cons, hacc]
      obtain ⟨acc', h1, h2⟩ := updateAllSlots_preserve addr slot tl
        ({ db with accounts := (mapInsert db.accounts addr
            { acc with storage := (mapInsert acc.storage s
                { value := v, insertionType := InsertionType.Custom }) }) })
        ({ acc with storage := (mapInsert acc.storage s
            { value := v, insertionType := InsertionType.Custom }) })
        (by simp [mapInsert]) htl
      refine ⟨acc', h1, ?_⟩
      rw [h2]
      show (mapInsert acc.storage s _) slot = acc.storage slot
      simp only [mapInsert, if_neg hs]

theorem updateAllSlots_lookup (addr slot value : Nat) :
    ∀ (l : List (Nat × Nat)) (db : BlockStateDB),
      (db.accounts addr).isSome → (slot, value) ∈ l →
      (l.map Prod.fst).Nodup →
      ∃ acc, (updateAllSlots db addr l).accounts addr = some acc ∧
        acc.storage slot =
          some { value := value, insertionType := InsertionType.Custom }
  | [], _, _, hmem, _ => absurd hmem (List.not_mem_nil _)
  | (s, v) :: tl, db, hacct, hmem, hnodup => by
      obtain ⟨acc, hacc⟩ := Option.isSome_iff_exists.mp hacct
      rw [updateAllSlots_cons, hacc]
      rcases List.mem_cons.mp hmem with heq | htl
      · have hsv : slot = s ∧ value = v := by simpa using heq
        obtain ⟨rfl, rfl⟩ := hsv
        have hnot : slot ∉ tl.map Prod.fst :=
          (List.nodup_cons.mp (by simpa using hnodup)).1
        obtain ⟨acc', h1, h2⟩ := updateAllSlots_preserve addr slot tl
          ({ db with accounts := (mapInsert db.accounts addr
              { acc with storage := (mapInsert acc.storage slot
                  { value := value, insertionType := InsertionType.Custom }) }) })
          ({ acc with storage := (mapInsert acc.storage slot
              { value := value, insertionType := InsertionType.Custom }) })
          (by simp [mapInsert]) hnot
        refine ⟨acc', h1, ?_⟩
        rw [h2]
        show (mapInsert acc.storage slot _) slot = _
        simp [mapInsert]
      · have hnodup' : (tl.map Prod.fst).Nodup :=
          (List.nodup_cons.mp (by simpa using hnodup)).2
        exact updateAllSlots_lookup addr slot value tl
          ({ db with accounts := (mapInsert db.accounts addr
              { acc with storage := (mapInsert acc.storage s
                  { value := v, insertionType := InsertionType.Custom }) }) })
          (by simp [mapInsert]) htl hnodup'

/-- C5: for a tracked pool whose account record exists, applying a block
diff writes exactly the diffed slots, and a subsequent cached storage
read of any slot contained in the diff returns exactly the value the
diff assigned (the diff's slot keys are distinct, as they come from one
trace map). -/
theorem updateState_storage_roundtrip (db : BlockStateDB) (addr : Nat)
    (diff : List (Nat × Nat)) (slot value : Nat)
    (htrack : trackingPool db addr = true)
    (hacct : (db.accounts addr).isSome)
    (hmem : (slot, value) ∈ diff)
    (hnodup : (diff.map Prod.fst).Nodup) :
    storage (updateStateStep db addr diff) addr slot =
      Except.ok (value, updateStateStep db addr diff) := by
  have hstep : updateStateStep db addr diff = updateAllSlots db addr diff := by
    simp [updateStateStep, htrack]
  rw [hstep]
  obtain ⟨acc, h1, h2⟩ := updateAllSlots_lookup addr slot value diff db
    hacct hmem hnodup
  simp [storage, h1, h2]

/-- Account fixture with empty storage. -/
def exAccount : BlockStateDBAccount :=
  { info := { balance := 0, nonce := 0, codeHash := 0, code := 0 },
    state := AccountState.None,
    storage := fun _ => none,
    insertionType := InsertionType.OnChain }

/-- State fixture: the tracked pool at address 5 also has an account
record. -/
def mkStoreDB : BlockStateDB :=
  { mkV2DB 1 0 with accounts := fun a => if a = 5 then some exAccount else none }

/-- C5 witness: applying the diff `[(3, 42), (9, 7)]` to the tracked pool
at address 5 makes the cached read of slot 3 return 42. -/
theorem updateState_storage_roundtrip_witness :
    storage (updateStateStep mkStoreDB 5 [(3, 42), (9, 7)]) 5 3 =
      Except.ok (42, updateStateStep mkStoreDB 5 [(3, 42), (9, 7)]) :=
  updateState_storage_roundtrip mkStoreDB 5 [(3, 42), (9, 7)] 3 42 rfl
    (by simp [mkStoreDB]) (by decide) (by decide)

/-- Provider fixture whose every lookup fails. -/
def offlineProvider : RemoteProvider :=
  { getStorageAt := fun _ _ => Except.error "transport",
    getTransactionCount := fun _ => Except.error "transport",
    getBalance := fun _ => Except.error "transport",
    getCodeAt := fun _ => Except.error "transport" }

/-- State fixture with no cached accounts and a failing provider. -/
def offlineDB : BlockStateDB :=
  { mkV2DB 1 0 with provider := offlineProvider }

/-- C7 counterexample: on an account cache miss with a failing provider,
`basic` panics (`basic_ref` maps the provider error to `Ok(None)` and
`basic` unwraps it) instead of returning the error; `get_reserves`
likewise unwraps its remote read and panics. -/
theorem basic_fetch_failure_panics :
    basic offlineDB 77 = none ∧ getReserves offlineDB 5 = none :=
  ⟨rfl, rfl⟩

/-- C7 amended: a storage-slot cache miss does propagate the remote
error to the caller through `Database::storage`; but an account cache
miss whose remote fetch fails panics in `Database::basic`, as does
`get_reserves`. -/
theorem storage_fetch_failure_propagates (db : BlockStateDB)
    (addr idx : Nat) (e : String)
    (hfail : db.provider.getStorageAt addr idx = Except.error e) :
    (db.accounts addr = none → storage db addr idx = Except.error e)
    ∧ (∀ acc, db.accounts addr = some acc → acc.storage idx = none →
        storage db addr idx = Except.error e) := by
  constructor
  · intro hnone
    simp [storage, hnone, storageRef, hfail]
  · intro acc hacc hslot
    simp [storage, hacc, hslot, storageRef, hfail]

/-- C7 witness: a cache-missed storage read against the failing provider
returns the transport error. -/
theorem storage_fetch_failure_propagates_witness :
    storage offlineDB 9 3 = Except.error "transport" :=
  (storage_fetch_failure_propagates offlineDB 9 3 "transport" rfl).1 rfl

/-- C10: the dispatcher's BalancerV2 arm passes `token_in` as both token
arguments, so the weighted-pool computation looks up the same token index
for both sides (balanceIn = balanceOut, weightIn = weightOut), and the
fixed-point exponent weightIn/weightOut it feeds to the power function is
exactly one (`10^18`) for any nonzero non-wrapping weight, regardless of
the token the caller wants out. -/
theorem computeAmountOut_balancer_tokenIdentity (powUp : Nat → Nat → Nat)
    (math : V3Math) (fuel : Nat) (db : BlockStateDB) (a pool tin fee : Nat) :
    computeAmountOut powUp math fuel db a pool tin PoolType.BalancerV2 fee =
      balancerV2Out powUp db a tin tin pool
    ∧ ∀ w, w ≠ 0 → w * 10 ^ 18 < UMAX → divDown w w = some (10 ^ 18) := by
  constructor
  · rfl
  · intro w hw hlt
    simp only [divDown, if_neg hw, wmul, Nat.mod_eq_of_lt hlt]
    rw [Nat.mul_div_cancel_left (10 ^ 18) (Nat.pos_of_ne_zero hw)]

/-- C10 witness: the BalancerV2 dispatch at a concrete state equals the
token-in/token-in call, and the exponent for weight 3 is exactly `10^18`. -/
theorem computeAmountOut_balancer_tokenIdentity_witness :
    computeAmountOut pow0 exMath0 0 (mkV2DB 1 0) 5 5 1 PoolType.BalancerV2 0 =
      balancerV2Out pow0 (mkV2DB 1 0) 5 1 1 5
    ∧ divDown 3 3 = some (10 ^ 18) :=
  ⟨(computeAmountOut_balancer_tokenIdentity pow0 exMath0 0 (mkV2DB 1 0) 5 5 1 0).1,
   (computeAmountOut_balancer_tokenIdentity pow0 exMath0 0 (mkV2DB 1 0) 5 5 1 0).2
     3 (by decide) (by decide)⟩

theorem getYCountGo_le (x0 xyK : Nat) :
    ∀ fuel y, getYCountGo x0 xyK fuel y ≤ fuel
  | 0, _ => Nat.le_refl 0
  | fuel + 1, y => by
      simp only [getYCountGo]
      cases h : getYStep x0 xyK y with
      | done _ => simp
      | next y' =>
          simp only []
          have := getYCountGo_le x0 xyK fuel y'
          omega

theorem getYStep_zero_derivative (x0 xyK y : Nat) (hd : aeroD x0 y = 0) :
    getYStep x0 xyK y = GetYStep.done y := by
  simp only [getYStep, hd, if_pos]

theorem getY_zero_derivative (x0 xyK y : Nat) (hd : aeroD x0 y = 0) :
    getY x0 xyK y = y := by
  show getYGo x0 xyK (254 + 1) y = y
  simp only [getYGo, getYStep_zero_derivative x0 xyK y hd]

set_option maxHeartbeats 1000000 in
theorem getYStep_unit_step (x0 xyK y : Nat)
    (hd : aeroD x0 y ≠ 0)
    (hdy : satMul (if aeroF x0 y > xyK then satSub (aeroF x0 y) xyK
        else satSub xyK (aeroF x0 y)) (wpow 10 18) / aeroD x0 y = 0) :
    (aeroF x0 y = xyK → getYStep x0 xyK y = GetYStep.done y)
    ∧ (aeroF x0 y < xyK →
        getYStep x0 xyK y = GetYStep.done (satAdd y 1) ∨
        getYStep x0 xyK y = GetYStep.next (satAdd y 1))
    ∧ (xyK < aeroF x0 y →
        getYStep x0 xyK y = GetYStep.done y ∨
        getYStep x0 xyK y = GetYStep.next (satSub y 1)) := by
  have hsat1 : satAdd y 1 ≠ 0 := by
    simp only [satAdd, UMAX]
    omega
  refine ⟨?_, ?_, ?_⟩ <;> intro hk
  · have hdiff : (if aeroF x0 y > xyK then satSub (aeroF x0 y) xyK
        else satSub xyK (aeroF x0 y)) = 0 := by
      rw [hk]; simp [satSub]
    have hdyv : satMul 0 (wpow 10 18) / aeroD x0 y = 0 := by
      simp [satMul]
    simp only [getYStep]
    rw [if_neg hd, hdiff, hdyv]
    by_cases hy1 : satSub y 1 = 0 <;>
      by_cases hkn : aeroF x0 (satSub y 1) ≤ xyK <;>
        simp [hk, hy1, hkn]
  · have hdiff : (if aeroF x0 y > xyK then satSub (aeroF x0 y) xyK
        else satSub xyK (aeroF x0 y)) = satSub xyK (aeroF x0 y) := by
      rw [if_neg (by omega)]
    rw [hdiff] at hdy
    simp only [getYStep]
    rw [if_neg hd, hdiff, hdy]
    by_cases hkn : xyK ≤ aeroF x0 (satAdd y 1) <;>
      simp [hk, hkn, hsat1, lt_asymm hk, ne_of_lt hk, Nat.not_le.mpr hk]
  · have hdiff : (if aeroF x0 y > xyK then satSub (aeroF x0 y) xyK
        else satSub xyK (aeroF x0 y)) = satSub (aeroF x0 y) xyK := by
      rw [if_pos hk]
    rw [hdiff] at hdy
    simp only [getYStep]
    rw [if_neg hd, hdiff, hdy]
    by_cases hy1 : satSub y 1 = 0 <;>
      by_cases hkn : aeroF x0 (satSub y 1) ≤ xyK <;>
        simp [hy1, hkn, lt_asymm hk, ne_of_gt hk, hk.le]

/-- C8: the stable-curve Newton solver runs at most 255 iterations; a
zero derivative returns the current estimate immediately; and when the
derivative-based step underflows below one unit, the iteration either
returns on crossing or meeting the target `k` or advances by exactly one
unit. -/
theorem getY_newton_contract (x0 xyK y : Nat) :
    getYCount x0 xyK y ≤ 255
    ∧ (aeroD x0 y = 0 → getY x0 xyK y = y)
    ∧ (aeroD x0 y ≠ 0 →
        satMul (if aeroF x0 y > xyK then satSub (aeroF x0 y) xyK
            else satSub xyK (aeroF x0 y)) (wpow 10 18) / aeroD x0 y = 0 →
        (aeroF x0 y = xyK → getYStep x0 xyK y = GetYStep.done y)
        ∧ (aeroF x0 y < xyK →
            getYStep x0 xyK y = GetYStep.done (satAdd y 1) ∨
            getYStep x0 xyK y = GetYStep.next (satAdd y 1))
        ∧ (xyK < aeroF x0 y →
            getYStep x0 xyK y = GetYStep.done y ∨
            getYStep x0 xyK y = GetYStep.next (satSub y 1))) :=
  ⟨getYCountGo_le x0 xyK 255 y, getY_zero_derivative x0 xyK y,
   getYStep_unit_step x0 xyK y⟩

/-- C8 witness: a zero derivative (x0 = 0) returns the estimate at once
within the 255-iteration budget, and at the converged point
(x0 = y = 10^18, k hit exactly) the underflowing step returns the
current estimate. -/
theorem getY_newton_contract_witness :
    getYCount 0 5 7 ≤ 255 ∧ getY 0 5 7 = 7 ∧
    getYStep (10 ^ 18) (aeroF (10 ^ 18) (10 ^ 18)) (10 ^ 18) =
      GetYStep.done (10 ^ 18) :=
  ⟨(getY_newton_contract 0 5 7).1,
   (getY_newton_contract 0 5 7).2.1 (by decide),
   ((getY_newton_contract (10 ^ 18) (aeroF (10 ^ 18) (10 ^ 18)) (10 ^ 18)).2.2
     (by decide) (by decide)).1 rfl⟩

/-- Tick-math fixture that always crosses into the next lower tick with
net liquidity 100, consuming one unit per step. -/
def exMathCross : V3Math :=
  { nextInitializedTickWithinOneWord := fun _ t _ _ => Except.ok (t - 1, true),
    getSqrtRatioAtTick := fun _ => Except.ok (10 ^ 10),
    computeSwapStep := fun _ tgt _ _ _ => Except.ok (tgt, 1, 1, 0),
    getTickAtSqrtRatio := fun _ => Except.ok 0 }

/-- State fixture for a concentrated-liquidity pool at address 5 with
active liquidity 5, so that crossing a tick with net liquidity 100 in
the downward direction underflows. -/
def mkV3DB : BlockStateDB :=
  { mkV2DB 1 0 with
    slot0 := fun _ => Except.ok { sqrtPriceX96 := 2 * 10 ^ 10, tick := 0 },
    liquidity := fun _ => Except.ok 5,
    tickSpacing := fun _ => Except.ok 1,
    tickBitmap := fun _ _ => Except.ok 0,
    ticksLiquidityNet := fun _ _ => Except.ok 100 }

/-- C3 counterexample: at a concrete pool state the concentrated-liquidity
computation returns the `"Insufficient liquidity"` error (repository code,
`checked_sub` on the crossing), and `compute_amount_out` then panics on
its `expect` (`none`) instead of returning the zero-output sentinel —
while an unimplemented protocol on the same state does return `some 0`. -/
theorem computeAmountOut_v3_error_panics :
    uniswapV3Out exMathCross mkV3DB 3 100 5 1 3000 =
      some (Except.error "Insufficient liquidity")
    ∧ computeAmountOut pow0 exMathCross 3 mkV3DB 100 5 1
        PoolType.UniswapV3 3000 = none
    ∧ computeAmountOut pow0 exMathCross 3 mkV3DB 100 5 1
        PoolType.MaverickV1 3000 = some 0 :=
  ⟨rfl, rfl, rfl⟩

/-- C3 amended: per-quote failures of the unimplemented Maverick and
Curve arms degrade to the zero-output sentinel, but an error returned by
the concentrated-liquidity computation is unwrapped with
`expect("Uniswap V3 computation failed")`, which panics — aborting the
batch instead of yielding the sentinel. -/
theorem computeAmountOut_error_policy (powUp : Nat → Nat → Nat)
    (math : V3Math) (fuel : Nat) (db : BlockStateDB) (a pool tin fee : Nat) :
    computeAmountOut powUp math fuel db a pool tin PoolType.MaverickV1 fee = some 0
    ∧ computeAmountOut powUp math fuel db a pool tin PoolType.MaverickV2 fee = some 0
    ∧ computeAmountOut powUp math fuel db a pool tin PoolType.CurveTwoCrypto fee = some 0
    ∧ computeAmountOut powUp math fuel db a pool tin PoolType.CurveTriCrypto fee = some 0
    ∧ (∀ e, uniswapV3Out math db fuel a pool tin fee = some (Except.error e) →
        computeAmountOut powUp math fuel db a pool tin PoolType.UniswapV3 fee = none) := by
  refine ⟨rfl, rfl, rfl, rfl, ?_⟩
  intro e h
  simp [computeAmountOut, h]

/-- C3 witness for the amended policy: at the crossing-underflow state the
V3 dispatch panics while the Curve arm yields the sentinel. -/
theorem computeAmountOut_error_policy_witness :
    computeAmountOut pow0 exMathCross 3 mkV3DB 100 5 1
        PoolType.UniswapV3 3000 = none
    ∧ computeAmountOut pow0 exMathCross 3 mkV3DB 100 5 1
        PoolType.CurveTwoCrypto 3000 = some 0 :=
  ⟨(computeAmountOut_error_policy pow0 exMathCross 3 mkV3DB 100 5 1
      3000).2.2.2.2 "Insufficient liquidity" rfl,
   (computeAmountOut_error_policy pow0 exMathCross 3 mkV3DB 100 5 1
      3000).2.2.1⟩

theorem v3Step_ok_elim (math : V3Math) (db : BlockStateDB) (pool : Nat)
    (z : Bool) (ts : Int) (fee limit : Nat) (st st' : CurrentState)
    (hok : v3Step math db pool z ts fee limit st = Except.ok st') :
    ∃ tickNextRaw initialized sqrtPriceNextX96 sqrtPriceNext
      amountIn amountOut feeAmount,
      math.nextInitializedTickWithinOneWord
          (v3BitmapWindow db pool ((position (Int.tdiv st.tick ts)).1))
          st.tick ts z = Except.ok (tickNextRaw, initialized)
      ∧ math.getSqrtRatioAtTick (v3ClampTick tickNextRaw) =
          Except.ok sqrtPriceNextX96
      ∧ math.computeSwapStep st.sqrtPriceX96
          (v3SwapTarget z sqrtPriceNextX96 limit) st.liquidity
          st.amountSpecifiedRemaining fee =
          Except.ok (sqrtPriceNext, amountIn, amountOut, feeAmount)
      ∧ st'.amountSpecifiedRemaining =
          st.amountSpecifiedRemaining - i256ofRaw ((amountIn + feeAmount) % UMAX)
      ∧ st'.amountCalculated = st.amountCalculated - i256ofRaw (amountOut % UMAX)
      ∧ st'.sqrtPriceX96 = sqrtPriceNext
      ∧ (sqrtPriceNext = sqrtPriceNextX96 →
          st'.tick = (if z then v3ClampTick tickNextRaw - 1
                      else v3ClampTick tickNextRaw)) := by
  unfold v3Step at hok
  simp only [] at hok
  iterate 8 (all_goals (first | exact Except.noConfusion hok | split at hok | skip))
  all_goals (
    injection hok with hst
    subst hst
    exact ⟨_, _, _, _, _, _, _, ‹_›, ‹_›, ‹_›, by simp [v3Advance],
      by simp [v3Advance], by simp [v3Advance],
      by intro h; simp_all [v3Advance]⟩)


theorem i256ofRaw_small (x : Nat) (h : x < 2 ^ 255) : i256ofRaw x = (x : Int) := by
  unfold i256ofRaw
  rw [if_pos h]

/-- Loop variant: distance from the current tick to the reachable tick
bound in the swap's direction, always positive. -/
def v3Measure (z : Bool) (t : Int) : Nat :=
  if z then (t - (MIN_TICK - 1)).toNat + 1 else (MAX_TICK + 1 - t).toNat + 1

/-- Tick range maintained by the loop: the downward direction can end one
below `MIN_TICK` after a crossing, the upward direction stays within the
global bounds. -/
def v3TickInv (z : Bool) (t : Int) : Prop :=
  if z then MIN_TICK - 1 ≤ t ∧ t ≤ MAX_TICK else MIN_TICK ≤ t ∧ t ≤ MAX_TICK

theorem v3Step_calc (math : V3Math) (db : BlockStateDB) (pool : Nat)
    (z : Bool) (ts : Int) (fee limit : Nat) (st st' : CurrentState)
    (hstep : ∀ p tgt L r f sn ai ao fe,
      math.computeSwapStep p tgt L r f = Except.ok (sn, ai, ao, fe) →
      ao < 2 ^ 128)
    (hok : v3Step math db pool z ts fee limit st = Except.ok st') :
    st.amountCalculated - 2 ^ 128 < st'.amountCalculated ∧
      st'.amountCalculated ≤ st.amountCalculated := by
  obtain ⟨raw, init, nxt, sn, ai, ao, fe, h1, h2, h3, h4, h5, h6, h7⟩ :=
    v3Step_ok_elim math db pool z ts fee limit st st' hok
  have hao := hstep _ _ _ _ _ _ _ _ _ h3
  have hao256 : ao < UMAX := lt_trans hao (by norm_num [UMAX])
  have hmod : ao % UMAX = ao := Nat.mod_eq_of_lt hao256
  have hsm : i256ofRaw (ao % UMAX) = (ao : Int) := by
    rw [hmod]
    exact i256ofRaw_small ao (lt_trans hao (by norm_num))
  rw [h5, hsm]
  have : (ao : Int) < 2 ^ 128 := by exact_mod_cast hao
  omega

theorem v3Step_progress (math : V3Math) (db : BlockStateDB) (pool : Nat)
    (z : Bool) (ts : Int) (fee limit : Nat) (st st' : CurrentState)
    (hnext : ∀ (bm : Int → Option Nat) (t sp : Int) (zz : Bool) (t' : Int)
      (init : Bool),
      math.nextInitializedTickWithinOneWord bm t sp zz = Except.ok (t', init) →
      (zz = true → t' ≤ t) ∧ (zz = false → t < t'))
    (hratioMin : math.getSqrtRatioAtTick MIN_TICK = Except.ok minSqrtRatio)
    (hratioMax : math.getSqrtRatioAtTick MAX_TICK = Except.ok maxSqrtRatio)
    (hdich : ∀ p tgt L r f sn ai ao fe,
      math.computeSwapStep p tgt L r f = Except.ok (sn, ai, ao, fe) →
      sn = tgt ∨ i256ofRaw ((ai + fe) % UMAX) = r)
    (hlimit : limit = if z then minSqrtRatio + 1 else maxSqrtRatio - 1)
    (hinv : v3TickInv z st.tick)
    (hok : v3Step math db pool z ts fee limit st = Except.ok st')
    (hrem : st'.amountSpecifiedRemaining ≠ 0)
    (hprice : st'.sqrtPriceX96 ≠ limit) :
    v3TickInv z st'.tick ∧ v3Measure z st'.tick < v3Measure z st.tick := by
  obtain ⟨raw, init, nxt, sn, ai, ao, fe, h1, h2, h3, h4, h5, h6, h7⟩ :=
    v3Step_ok_elim math db pool z ts fee limit st st' hok
  have hsn : sn = v3SwapTarget z nxt limit := by
    rcases hdich _ _ _ _ _ _ _ _ _ h3 with h | h
    · exact h
    · exact absurd (by rw [h4, h]; ring) hrem
  have htgt_ne : v3SwapTarget z nxt limit ≠ limit := by
    intro h
    exact hprice (by rw [h6, hsn, h])
  have hnx := hnext _ _ _ _ _ _ h1
  cases z with
  | true =>
      have hlim' : limit = minSqrtRatio + 1 := by simpa using hlimit
      have htgt : v3SwapTarget true nxt limit = nxt ∧ ¬ nxt < limit := by
        by_cases hc : nxt < limit
        · exact absurd (by simp [v3SwapTarget, hc]) htgt_ne
        · exact ⟨by simp [v3SwapTarget, hc], hc⟩
      have hraw : raw ≤ st.tick := hnx.1 rfl
      have hinv' : MIN_TICK - 1 ≤ st.tick ∧ st.tick ≤ MAX_TICK := by
        simpa [v3TickInv] using hinv
      have htick : st'.tick = v3ClampTick raw - 1 := h7 (by rw [hsn, htgt.1])
      by_cases hedge : MIN_TICK ≤ st.tick
      · have hclamp_le : v3ClampTick raw ≤ st.tick := by
          have h1' : min raw MAX_TICK ≤ st.tick :=
            le_trans (min_le_left _ _) hraw
          exact max_le hedge h1'
        have hclamp_ge : MIN_TICK ≤ v3ClampTick raw := le_max_left _ _
        constructor
        · show MIN_TICK - 1 ≤ st'.tick ∧ st'.tick ≤ MAX_TICK
          omega
        · show (st'.tick - (MIN_TICK - 1)).toNat + 1 <
            (st.tick - (MIN_TICK - 1)).toNat + 1
          omega
      · have hst : st.tick = MIN_TICK - 1 := by omega
        have hrlt : raw < MIN_TICK := by omega
        have hclamp : v3ClampTick raw = MIN_TICK := by
          simp only [v3ClampTick]
          have : min raw MAX_TICK = raw := by
            apply min_eq_left
            simp only [MIN_TICK, MAX_TICK] at *
            omega
          rw [this]
          exact max_eq_left (le_of_lt hrlt)
        have hnxt : nxt = minSqrtRatio := by
          rw [hclamp, hratioMin] at h2
          exact (Except.ok.inj h2).symm
        exact absurd (by rw [hnxt, hlim']; omega) htgt.2
  | false =>
      have hlim' : limit = maxSqrtRatio - 1 := by simpa using hlimit
      have htgt : v3SwapTarget false nxt limit = nxt ∧ ¬ nxt > limit := by
        by_cases hc : nxt > limit
        · exact absurd (by simp [v3SwapTarget, hc]) htgt_ne
        · exact ⟨by simp [v3SwapTarget, hc], hc⟩
      have hraw : st.tick < raw := hnx.2 rfl
      have hinv' : MIN_TICK ≤ st.tick ∧ st.tick ≤ MAX_TICK := by
        simpa [v3TickInv] using hinv
      have htick : st'.tick = v3ClampTick raw := h7 (by rw [hsn, htgt.1])
      by_cases hedge : raw ≤ MAX_TICK
      · have hclamp : v3ClampTick raw = raw := by
          simp only [v3ClampTick]
          rw [min_eq_left hedge]
          exact max_eq_right (by omega)
        constructor
        · show MIN_TICK ≤ st'.tick ∧ st'.tick ≤ MAX_TICK
          rw [htick, hclamp]
          omega
        · show (MAX_TICK + 1 - st'.tick).toNat + 1 <
            (MAX_TICK + 1 - st.tick).toNat + 1
          rw [htick, hclamp]
          omega
      · have hclamp : v3ClampTick raw = MAX_TICK := by
          simp only [v3ClampTick]
          rw [min_eq_right (by omega)]
          exact max_eq_right (by simp only [MIN_TICK, MAX_TICK]; omega)
        have hnxt : nxt = maxSqrtRatio := by
          rw [hclamp, hratioMax] at h2
          exact (Except.ok.inj h2).symm
        refine absurd ?_ htgt.2
        rw [hnxt, hlim']
        have : 1 ≤ maxSqrtRatio := by norm_num [maxSqrtRatio]
        omega

theorem v3Measure_pos (z : Bool) (t : Int) : 1 ≤ v3Measure z t := by
  cases z <;> (show 1 ≤ _ + 1; omega)

theorem uniswapV3Go_succ (math : V3Math) (db : BlockStateDB) (pool : Nat)
    (z : Bool) (ts : Int) (fee limit : Nat) (n : Nat) (st : CurrentState) :
    uniswapV3Go math db pool z ts fee limit (n + 1) st =
      (if st.amountSpecifiedRemaining ≠ 0 ∧ st.sqrtPriceX96 ≠ limit then
        match v3Step math db pool z ts fee limit st with
        | Except.error e => Except.error e
        | Except.ok st' => uniswapV3Go math db pool z ts fee limit n st'
      else Except.ok (i256toRaw (-st.amountCalculated))) := rfl

theorem uniswapV3Go_exit (math : V3Math) (db : BlockStateDB) (pool : Nat)
    (z : Bool) (ts : Int) (fee limit : Nat) (n : Nat) (st : CurrentState)
    (h : ¬ (st.amountSpecifiedRemaining ≠ 0 ∧ st.sqrtPriceX96 ≠ limit)) :
    uniswapV3Go math db pool z ts fee limit (n + 1) st =
      Except.ok (i256toRaw (-st.amountCalculated)) := by
  rw [uniswapV3Go_succ, if_neg h]

theorem uniswapV3Go_stable (math : V3Math) (db : BlockStateDB) (pool : Nat)
    (z : Bool) (ts : Int) (fee limit : Nat)
    (hnext : ∀ (bm : Int → Option Nat) (t sp : Int) (zz : Bool) (t' : Int)
      (init : Bool),
      math.nextInitializedTickWithinOneWord bm t sp zz = Except.ok (t', init) →
      (zz = true → t' ≤ t) ∧ (zz = false → t < t'))
    (hratioMin : math.getSqrtRatioAtTick MIN_TICK = Except.ok minSqrtRatio)
    (hratioMax : math.getSqrtRatioAtTick MAX_TICK = Except.ok maxSqrtRatio)
    (hdich : ∀ p tgt L r f sn ai ao fe,
      math.computeSwapStep p tgt L r f = Except.ok (sn, ai, ao, fe) →
      sn = tgt ∨ i256ofRaw ((ai + fe) % UMAX) = r)
    (hlimit : limit = if z then minSqrtRatio + 1 else maxSqrtRatio - 1) :
    ∀ (k : Nat) (st : CurrentState) (f1 f2 : Nat),
      v3Measure z st.tick ≤ k → v3TickInv z st.tick →
      v3Measure z st.tick + 1 ≤ f1 → v3Measure z st.tick + 1 ≤ f2 →
      uniswapV3Go math db pool z ts fee limit f1 st =
        uniswapV3Go math db pool z ts fee limit f2 st := by
  intro k
  induction k with
  | zero =>
      intro st f1 f2 hk _ _ _
      exact absurd hk (by have := v3Measure_pos z st.tick; omega)
  | succ k ih =>
      intro st f1 f2 hk hinv h1 h2
      have hpos := v3Measure_pos z st.tick
      obtain ⟨g1, rfl⟩ : ∃ g1, f1 = g1 + 1 := ⟨f1 - 1, by omega⟩
      obtain ⟨g2, rfl⟩ : ∃ g2, f2 = g2 + 1 := ⟨f2 - 1, by omega⟩
      by_cases hc : st.amountSpecifiedRemaining ≠ 0 ∧ st.sqrtPriceX96 ≠ limit
      · rw [uniswapV3Go_succ, uniswapV3Go_succ, if_pos hc, if_pos hc]
        cases hstep : v3Step math db pool z ts fee limit st with
        | error e => rfl
        | ok st' =>
            show uniswapV3Go math db pool z ts fee limit g1 st' =
              uniswapV3Go math db pool z ts fee limit g2 st'
            by_cases hc' : st'.amountSpecifiedRemaining ≠ 0 ∧
                st'.sqrtPriceX96 ≠ limit
            · obtain ⟨hinv', hlt⟩ := v3Step_progress math db pool z ts fee limit
                st st' hnext hratioMin hratioMax hdich hlimit hinv hstep
                hc'.1 hc'.2
              exact ih st' g1 g2 (by omega) hinv' (by omega) (by omega)
            · obtain ⟨g1', rfl⟩ : ∃ t, g1 = t + 1 := ⟨g1 - 1, by omega⟩
              obtain ⟨g2', rfl⟩ : ∃ t, g2 = t + 1 := ⟨g2 - 1, by omega⟩
              rw [uniswapV3Go_exit math db pool z ts fee limit g1' st' hc',
                uniswapV3Go_exit math db pool z ts fee limit g2' st' hc']
      · rw [uniswapV3Go_exit math db pool z ts fee limit g1 st hc,
          uniswapV3Go_exit math db pool z ts fee limit g2 st hc]

theorem i256toRaw_bound (x : Int) (h0 : 0 ≤ x) (h : x < 2 ^ 255) :
    i256toRaw x < 2 ^ 255 := by
  unfold i256toRaw
  rw [Int.emod_eq_of_lt h0 (by omega)]
  omega

theorem uniswapV3Go_output_bound (math : V3Math) (db : BlockStateDB)
    (pool : Nat) (z : Bool) (ts : Int) (fee limit : Nat)
    (hnext : ∀ (bm : Int → Option Nat) (t sp : Int) (zz : Bool) (t' : Int)
      (init : Bool),
      math.nextInitializedTickWithinOneWord bm t sp zz = Except.ok (t', init) →
      (zz = true → t' ≤ t) ∧ (zz = false → t < t'))
    (hratioMin : math.getSqrtRatioAtTick MIN_TICK = Except.ok minSqrtRatio)
    (hratioMax : math.getSqrtRatioAtTick MAX_TICK = Except.ok maxSqrtRatio)
    (hdich : ∀ p tgt L r f sn ai ao fe,
      math.computeSwapStep p tgt L r f = Except.ok (sn, ai, ao, fe) →
      sn = tgt ∨ i256ofRaw ((ai + fe) % UMAX) = r)
    (hao : ∀ p tgt L r f sn ai ao fe,
      math.computeSwapStep p tgt L r f = Except.ok (sn, ai, ao, fe) →
      ao < 2 ^ 128)
    (hlimit : limit = if z then minSqrtRatio + 1 else maxSqrtRatio - 1) :
    ∀ (k : Nat) (st : CurrentState) (f v : Nat),
      v3Measure z st.tick ≤ k → v3TickInv z st.tick →
      st.amountCalculated ≤ 0 →
      -st.amountCalculated + 2 ^ 128 * (v3Measure z st.tick : Int) < 2 ^ 255 →
      uniswapV3Go math db pool z ts fee limit f st = Except.ok v →
      v < 2 ^ 255 := by
  intro k
  induction k with
  | zero =>
      intro st f v hk _ _ _ _
      exact absurd hk (by have := v3Measure_pos z st.tick; omega)
  | succ k ih =>
      intro st f v hk hinv hcalc hbound hok
      have hpos := v3Measure_pos z st.tick
      cases f with
      | zero => exact Except.noConfusion hok
      | succ g =>
          by_cases hc : st.amountSpecifiedRemaining ≠ 0 ∧ st.sqrtPriceX96 ≠ limit
          · rw [uniswapV3Go_succ, if_pos hc] at hok
            cases hstep : v3Step math db pool z ts fee limit st with
            | error e =>
                rw [hstep] at hok
                exact Except.noConfusion hok
            | ok st' =>
                rw [hstep] at hok
                replace hok : uniswapV3Go math db pool z ts fee limit g st' =
                  Except.ok v := hok
                obtain ⟨hlow, hhigh⟩ := v3Step_calc math db pool z ts fee limit
                  st st' hao hstep
                by_cases hc' : st'.amountSpecifiedRemaining ≠ 0 ∧
                    st'.sqrtPriceX96 ≠ limit
                · obtain ⟨hinv', hlt⟩ := v3Step_progress math db pool z ts fee
                    limit st st' hnext hratioMin hratioMax hdich hlimit hinv
                    hstep hc'.1 hc'.2
                  refine ih st' g v (by omega) hinv' (by omega) ?_ hok
                  have hcast : (v3Measure z st'.tick : Int) + 1 ≤
                      (v3Measure z st.tick : Int) := by exact_mod_cast hlt
                  nlinarith
                · cases g with
                  | zero => exact Except.noConfusion hok
                  | succ g' =>
                      rw [uniswapV3Go_exit math db pool z ts fee limit g' st'
                        hc'] at hok
                      have hv : v = i256toRaw (-st'.amountCalculated) :=
                        (Except.ok.inj hok).symm
                      rw [hv]
                      exact i256toRaw_bound _ (by omega) (by nlinarith)
          · rw [uniswapV3Go_exit math db pool z ts fee limit g st hc] at hok
            have hv : v = i256toRaw (-st.amountCalculated) :=
              (Except.ok.inj hok).symm
            rw [hv]
            exact i256toRaw_bound _ (by omega) (by nlinarith)

theorem uniswapV3Out_unfold (math : V3Math) (db : BlockStateDB)
    (fuel a pool tin fee t0 : Nat) (s0 : Slot0) (L : Nat) (ts : Int)
    (ha : a ≠ 0)
    (hinfo : db.poolInfo pool = some { token0 := t0 })
    (hslot : db.slot0 pool = Except.ok s0)
    (hliq : db.liquidity pool = Except.ok L)
    (hts : db.tickSpacing pool = Except.ok ts) :
    uniswapV3Out math db fuel a pool tin fee =
      some (uniswapV3Go math db pool (t0 == tin) ts fee
        (if (t0 == tin) then minSqrtRatio + 1 else maxSqrtRatio - 1) fuel
        { sqrtPriceX96 := s0.sqrtPriceX96, amountCalculated := 0,
          amountSpecifiedRemaining := i256ofRaw (a % UMAX),
          tick := s0.tick, liquidity := L }) := by
  simp only [uniswapV3Out, if_neg ha, zeroToOne, hinfo, Option.map_some',
    hslot, hliq, hts]

/-- C6: under the spec's contract for the external tick/step math — the
next-tick search moves in the swap's direction, the clamped global tick
bounds carry the protocol's sqrt prices, and one exact-input step either
reaches its target price or consumes the remaining input, producing less
than `2^128` output per step — every concentrated-liquidity quote with
positive liquidity, fee in `[1, 10000)`, a valid starting tick and input
bounded by the available liquidity is fully determined within an explicit
iteration bound (at most 1774548 loop passes: more fuel never changes the
result), and the returned amount carries no two's-complement wrap, i.e.
the accumulated output is non-negative. -/
theorem uniswapV3Out_terminates (math : V3Math) (db : BlockStateDB)
    (a pool tin fee t0 : Nat) (s0 : Slot0) (L : Nat) (ts : Int)
    (hinfo : db.poolInfo pool = some { token0 := t0 })
    (hslot : db.slot0 pool = Except.ok s0)
    (hliq : db.liquidity pool = Except.ok L)
    (hts : db.tickSpacing pool = Except.ok ts)
    (htick : MIN_TICK ≤ s0.tick ∧ s0.tick ≤ MAX_TICK)
    (hL : 0 < L) (hL128 : L < 2 ^ 128)
    (hfee : 1 ≤ fee ∧ fee < 10000)
    (hamt : 0 < a ∧ a ≤ L)
    (hnext : ∀ (bm : Int → Option Nat) (t sp : Int) (zz : Bool) (t' : Int)
      (init : Bool),
      math.nextInitializedTickWithinOneWord bm t sp zz = Except.ok (t', init) →
      (zz = true → t' ≤ t) ∧ (zz = false → t < t'))
    (hratioMin : math.getSqrtRatioAtTick MIN_TICK = Except.ok minSqrtRatio)
    (hratioMax : math.getSqrtRatioAtTick MAX_TICK = Except.ok maxSqrtRatio)
    (hstep : ∀ p tgt LL r f sn ai ao fe,
      math.computeSwapStep p tgt LL r f = Except.ok (sn, ai, ao, fe) →
      (sn = tgt ∨ i256ofRaw ((ai + fe) % UMAX) = r) ∧ ao < 2 ^ 128) :
    ∃ B, B ≤ 1774548 ∧
      (∀ f1 f2, B ≤ f1 → B ≤ f2 →
        uniswapV3Out math db f1 a pool tin fee =
          uniswapV3Out math db f2 a pool tin fee) ∧
      (∀ f v, uniswapV3Out math db f a pool tin fee = some (Except.ok v) →
        v < 2 ^ 255) := by
  have ha : a ≠ 0 := Nat.pos_iff_ne_zero.mp hamt.1
  have hdich : ∀ p tgt LL r f sn ai ao fe,
      math.computeSwapStep p tgt LL r f = Except.ok (sn, ai, ao, fe) →
      sn = tgt ∨ i256ofRaw ((ai + fe) % UMAX) = r :=
    fun p tgt LL r f sn ai ao fe h => (hstep p tgt LL r f sn ai ao fe h).1
  have hao : ∀ p tgt LL r f sn ai ao fe,
      math.computeSwapStep p tgt LL r f = Except.ok (sn, ai, ao, fe) →
      ao < 2 ^ 128 :=
    fun p tgt LL r f sn ai ao fe h => (hstep p tgt LL r f sn ai ao fe h).2
  set z : Bool := (t0 == tin) with hz
  set limit : Nat := if z then minSqrtRatio + 1 else maxSqrtRatio - 1
    with hlimit
  set st0 : CurrentState :=
    { sqrtPriceX96 := s0.sqrtPriceX96, amountCalculated := 0,
      amountSpecifiedRemaining := i256ofRaw (a % UMAX),
      tick := s0.tick, liquidity := L } with hst0
  have hinv : v3TickInv z s0.tick := by
    cases z with
    | true =>
        show MIN_TICK - 1 ≤ s0.tick ∧ s0.tick ≤ MAX_TICK
        omega
    | false =>
        show MIN_TICK ≤ s0.tick ∧ s0.tick ≤ MAX_TICK
        omega
  have hmu : v3Measure z s0.tick ≤ 1774547 := by
    cases z with
    | true =>
        show (s0.tick - (MIN_TICK - 1)).toNat + 1 ≤ 1774547
        simp only [MIN_TICK, MAX_TICK] at *
        omega
    | false =>
        show (MAX_TICK + 1 - s0.tick).toNat + 1 ≤ 1774547
        simp only [MIN_TICK, MAX_TICK] at *
        omega
  refine ⟨v3Measure z s0.tick + 1, by omega, ?_, ?_⟩
  · intro f1 f2 h1 h2
    rw [uniswapV3Out_unfold math db f1 a pool tin fee t0 s0 L ts ha hinfo
      hslot hliq hts,
      uniswapV3Out_unfold math db f2 a pool tin fee t0 s0 L ts ha hinfo
      hslot hliq hts]
    exact congrArg some (uniswapV3Go_stable math db pool z ts fee limit hnext
      hratioMin hratioMax hdich hlimit (v3Measure z s0.tick) st0 f1 f2
      (le_refl _) hinv h1 h2)
  · intro f v hok
    rw [uniswapV3Out_unfold math db f a pool tin fee t0 s0 L ts ha hinfo
      hslot hliq hts] at hok
    have hgo : uniswapV3Go math db pool z ts fee limit f st0 =
        Except.ok v := Option.some.inj hok
    refine uniswapV3Go_output_bound math db pool z ts fee limit hnext
      hratioMin hratioMax hdich hao hlimit (v3Measure z s0.tick) st0 f v
      (le_refl _) hinv (le_refl 0) ?_ hgo
    have : (v3Measure z s0.tick : Int) ≤ 1774547 := by exact_mod_cast hmu
    have hmeq : v3Measure z st0.tick = v3Measure z s0.tick := rfl
    show -(0 : Int) + 2 ^ 128 * (v3Measure z st0.tick : Int) < 2 ^ 255
    rw [hmeq]
    omega

/-- Tick-math fixture satisfying the spec's step contract: the search
moves one tick in the swap's direction and every step reaches its target
price with zero amounts. -/
def exMathMono : V3Math :=
  { nextInitializedTickWithinOneWord := fun _ t _ zz =>
      Except.ok ((if zz then t - 1 else t + 1), false),
    getSqrtRatioAtTick := fun t =>
      Except.ok (if t = MIN_TICK then minSqrtRatio
                 else if t = MAX_TICK then maxSqrtRatio else 5 * 10 ^ 9),
    computeSwapStep := fun _ tgt _ _ _ => Except.ok (tgt, 0, 0, 0),
    getTickAtSqrtRatio := fun _ => Except.ok 0 }

/-- C6 witness: at a concrete pool state (liquidity 5, fee 3000, tick 0,
input 3) with the monotone tick-math fixture, the quote is fully
determined within the iteration bound and its output carries no wrap. -/
theorem uniswapV3Out_terminates_witness :
    ∃ B, B ≤ 1774548 ∧
      (∀ f1 f2, B ≤ f1 → B ≤ f2 →
        uniswapV3Out exMathMono mkV3DB f1 3 5 1 3000 =
          uniswapV3Out exMathMono mkV3DB f2 3 5 1 3000) ∧
      (∀ f v, uniswapV3Out exMathMono mkV3DB f 3 5 1 3000 =
          some (Except.ok v) → v < 2 ^ 255) :=
  uniswapV3Out_terminates exMathMono mkV3DB 3 5 1 3000 1
    { sqrtPriceX96 := 2 * 10 ^ 10, tick := 0 } 5 1 rfl rfl rfl rfl
    (by constructor <;> decide) (by decide) (by decide)
    (by constructor <;> decide) (by constructor <;> decide)
    (by
      intro bm t sp zz t' init h
      have h' := Except.ok.inj h
      simp only [Prod.mk.injEq] at h'
      obtain ⟨ht, -⟩ := h'
      refine ⟨?_, ?_⟩ <;> intro hzz
      · subst hzz
        rw [if_pos rfl] at ht
        omega
      · subst hzz
        rw [if_neg (by decide)] at ht
        omega)
    rfl rfl
    (by
      intro p tgt LL r f sn ai ao fe h
      have h' := Except.ok.inj h
      simp only [Prod.mk.injEq] at h'
      obtain ⟨rfl, rfl, rfl, rfl⟩ := h'
      exact ⟨Or.inl rfl, by norm_num⟩)
